import Mathlib

/-!
Verification development for zeroCam: a shallow embedding of the
exposure-bracketing search in `src/cameras.py` (`PiCameraDevice.takePicture`,
non-day branch, together with the capture-index persistence helpers) and of
the capture/stream coordination logic in `src/zeroCam.py` (`ZeroCamApp`),
with theorems settling the specification's claims about them.
-/

/-- Outcome of one capture attempt inside the bracketing loop: a measured
mean brightness (`ok`, the 0-255 luminance of cameras.py line 231, modelled
as a rational), an empty image buffer (line 225, the attempt is skipped via
`continue`), or a hardware exception that aborts the whole `takePicture`
call (caught by the handler at lines 259-263). -/
inductive CapOutcome where
  | ok (b : ℚ)
  | empty
  | hwErr
deriving DecidableEq

/-- How the bracketing loop of cameras.py lines 201-246 ended: `success i`
is the in-band return at line 241 with `shutter_idx = i`; `noSuccess` means
the loop fell through to the fallback block (out-of-bounds break at
line 204, oscillation break at line 209, or `max_attempts` exhausted);
`aborted` means a hardware exception escaped the loop. -/
inductive LoopExit where
  | success (i : Nat)
  | noSuccess
  | aborted
deriving DecidableEq

/-- `SHUTTER_SPEEDS_SECONDS` of cameras.py line 138, converted to
microseconds as at line 183 (`int(s * 1_000_000)`). -/
def shutter_speeds_us : List Nat :=
  [125000, 250000, 500000, 750000, 1000000, 2000000, 4000000, 6000000,
   8000000, 10000000, 12000000, 15000000, 20000000, 30000000, 45000000, 60000000]

/-- The bracketing loop of cameras.py lines 201-246.  `L` is
`len(shutter_speeds_us)`; `m` gives the outcome of a capture at a shutter
index; `fuel` counts the remaining iterations of
`for attempt in range(max_attempts)`; `idx` is `shutter_idx` (an `Int`,
since the `-= 1` at line 246 can drive it below 0); `log` is `exp_results`,
an association list in dict insertion order.  The guards mirror lines
202-204 (bounds), 207-209 (anti-bouncing), 225-227 (empty buffer), 237-241
(target band reached), 243-246 (move the index towards the band). -/
def bracketLoop (L : Nat) (tmin tmax : ℚ) (m : Nat → CapOutcome) :
    Nat → Int → List (Nat × ℚ) → List (Nat × ℚ) × LoopExit
  | 0, _, log => (log, .noSuccess)
  | fuel+1, idx, log =>
    if ¬(0 ≤ idx ∧ idx < (L : Int)) then (log, .noSuccess)
    else if idx.toNat ∈ log.map Prod.fst then (log, .noSuccess)
    else
      match m idx.toNat with
      | .hwErr => (log, .aborted)
      | .empty => bracketLoop L tmin tmax m fuel idx log
      | .ok b =>
        let log' := log ++ [(idx.toNat, b)]
        if tmin ≤ b ∧ b ≤ tmax then (log', .success idx.toNat)
        else if b < tmin then bracketLoop L tmin tmax m fuel (idx+1) log'
        else if b > tmax then bracketLoop L tmin tmax m fuel (idx-1) log'
        else bracketLoop L tmin tmax m fuel idx log'

/-- `target_br` of cameras.py line 251: the midpoint of the brightness
band. -/
def target_br (tmin tmax : ℚ) : ℚ := (tmin + tmax) / 2

/-- The key function of the fallback `min(...)` at cameras.py line 252:
distance of a measured brightness from `target_br`. -/
def brightnessDist (tmin tmax b : ℚ) : ℚ := |b - target_br tmin tmax|

/-- `min(exp_results.keys(), key=lambda idx: abs(... - target_br))` of
cameras.py line 252.  Python's `min` returns the first element attaining
the minimal key in iteration order, and dict iteration order is insertion
order, which the association list preserves. -/
def fallbackPick (tmin tmax : ℚ) : List (Nat × ℚ) → Option (Nat × ℚ)
  | [] => none
  | e :: es =>
    some (es.foldl (fun best q =>
      if brightnessDist tmin tmax q.2 < brightnessDist tmin tmax best.2 then q else best) e)

/-- Result of the non-day `takePicture`: `frame` identifies the attempt
whose buffer/metadata were returned (by its shutter index; `none` models
the `return None, {}` paths), `storedIndex` is the index written to
`.capture_info` by `_store_capture_index` (`none` = nothing stored, file
unchanged), and `attempts` is the final `exp_results` log. -/
structure NonDayResult where
  frame : Option Nat
  storedIndex : Option Nat
  attempts : List (Nat × ℚ)
deriving DecidableEq

/-- The returns of `takePicture` around the loop (cameras.py lines 237-241,
248-257, 259-263): an in-band success stores and returns its index; a
hardware exception returns `None, {}` and stores nothing; otherwise the
fallback block returns `None, {}` if `exp_results` is empty (line 250) and
else stores and returns the attempt closest to `target_br`
(lines 251-257). -/
def finishSearch (tmin tmax : ℚ) : List (Nat × ℚ) × LoopExit → NonDayResult
  | (log, .success i) => ⟨some i, some i, log⟩
  | (log, .aborted) => ⟨none, none, log⟩
  | (log, .noSuccess) =>
    match fallbackPick tmin tmax log with
    | none => ⟨none, none, log⟩
    | some best => ⟨some best.1, some best.1, log⟩

/-- Seeding of `shutter_idx`, cameras.py lines 185-188: use
`last_known_exposure_index` when it is not `None`, else the mid-table
index 8. -/
def seedIndex : Option Int → Int
  | some v => v
  | none => 8

/-- `_init_capture_index`, cameras.py lines 102-105: after construction the
in-memory `last_known_exposure_index` is `capture_info.get('capture_idx', 0)`
— it is `0`, not `None`, when the persisted JSON lacks the `capture_idx`
key.  The argument is the value of that key in the file, if present. -/
def init_capture_index (fileIdx : Option Int) : Option Int :=
  some (fileIdx.getD 0)

/-- The non-day branch of `PiCameraDevice.takePicture`
(cameras.py lines 179-263): seed the index from
`last_known_exposure_index`, run the bracketing loop with
`max_attempts = 30` over the 16-entry shutter table, and resolve the
result. -/
def takePicture (tmin tmax : ℚ) (m : Nat → CapOutcome) (lastKnown : Option Int) :
    NonDayResult :=
  finishSearch tmin tmax
    (bracketLoop shutter_speeds_us.length tmin tmax m 30 (seedIndex lastKnown) [])

/-- Day periods as returned by the day-period oracle
(`day_period_calc.get_day_period()`). -/
inductive DayPeriod where
  | day
  | dawn
  | dusk
  | night
  | unknown
deriving DecidableEq

/-- Observable actions of `ZeroCamApp.capture_job` (zeroCam.py lines
122-184) and its helpers, in the order the job performs them.
`publishDiag` is `publish_diagnostic`, `streamStop`/`streamStart` are the
camera stream calls, `takePicture` is the capture itself, the pipeline
events are the post-processing collaborator calls, `incShotCounter` is
`self.shot_counter += 1` (line 151), and `hardReset` is
`hard_reset_camera` (lines 227-250). -/
inductive Event where
  | publishDiag (s : String)
  | streamStop
  | takePicture (dp : DayPeriod)
  | unsharpMask
  | crop
  | privacyMask
  | annotate
  | addOverlays
  | upload
  | saveImage
  | archive
  | incShotCounter
  | hardReset
  | streamStart (dp : DayPeriod)
deriving DecidableEq

/-- True for the events of the capture pipeline and device lifecycle,
false for the diagnostics publications and the pre-capture stream stop;
used to state in which order `capture_job` performs the pipeline. -/
def pipelineEvent : Event → Bool
  | .publishDiag _ => false
  | .streamStop => false
  | _ => true

/-- The per-job environment read by `capture_job`: the pause flag
(`capture_active.is_set()`), the oracle's day period, whether the camera
stream is running, whether `takePicture` returned a frame
(`image_buffer is not None`), the optional-step configuration flags, and
`cameraParameters.hardResetInterval`. -/
structure JobEnv where
  captureActive : Bool
  dayPeriod : DayPeriod
  cameraRunning : Bool
  captureOk : Bool
  unsharpEnabled : Bool
  cropEnabled : Bool
  privacyMaskerPresent : Bool
  archiveEnabled : Bool
  hardResetInterval : Nat
deriving DecidableEq

/-- `ZeroCamApp.capture_job` (zeroCam.py lines 122-184) together with
`_check_for_hard_reset` (lines 217-221) and `_restart_stream_if_enabled`
(lines 223-225), as a function from the environment and the current
`shot_counter` to the list of performed actions and the new counter.
Mirrors the source order: pause check (125-127), "Capturing Image"
diagnostic (130), unknown-day-period early return (133-135), stream stop
if running (140-141), capture (143), the failed-capture return (145-149),
counter increment (151), optional unsharp mask (154-156), "Annotating and
Overlaying" diagnostic (158), optional crop (161-162), optional privacy
masks (164-165), annotate (167), overlays (168), upload (170-171), local
save (173), optional archive (174), the "Capture Completed" and "Idle"
diagnostics (176-181), the hard-reset check, and the final stream
restart (183-184). -/
def capture_job (env : JobEnv) (shotCounter : Nat) : List Event × Nat :=
  if env.captureActive = false then ([], shotCounter)
  else
    let d0 : List Event := [.publishDiag "Capturing Image"]
    if env.dayPeriod = .unknown then (d0, shotCounter)
    else
      let d1 := d0 ++ (if env.cameraRunning then [Event.streamStop] else [])
      let d2 := d1 ++ [Event.takePicture env.dayPeriod]
      if env.captureOk = false then
        (d2 ++ [.publishDiag "Error: Capture Failed", .streamStart env.dayPeriod], shotCounter)
      else
        let c1 := shotCounter + 1
        let d3 := d2 ++ [Event.incShotCounter]
        let d4 := d3 ++ (if env.unsharpEnabled then
          [Event.publishDiag "Applying unsharp mask", .unsharpMask] else [])
        let d5 := d4 ++ [Event.publishDiag "Annotating and Overlaying"]
        let d6 := d5 ++ (if env.cropEnabled then [Event.crop] else [])
        let d7 := d6 ++ (if env.privacyMaskerPresent then [Event.privacyMask] else [])
        let d8 := d7 ++ [Event.annotate, .addOverlays]
        let d9 := d8 ++ [Event.publishDiag "Uploading Image", .upload, .saveImage]
        let d10 := d9 ++ (if env.archiveEnabled then [Event.archive] else [])
        let d11 := d10 ++ [Event.publishDiag "Capture Completed", .publishDiag "Idle"]
        let d12 := d11 ++ (if 0 < env.hardResetInterval ∧ env.hardResetInterval ≤ c1 then
          [Event.hardReset] else [])
        let d13 := d12 ++ [Event.streamStart env.dayPeriod]
        (d13, if 0 < env.hardResetInterval ∧ env.hardResetInterval ≤ c1 then 0 else c1)

/-- The coordinator state touched by `pause_capture`/`resume_capture`:
the `capture_active` event flag, `streaming_was_active`, and the camera's
`running` flag. -/
structure CoordState where
  captureActive : Bool
  streamingWasActive : Bool
  cameraRunning : Bool
deriving DecidableEq

/-- `ZeroCamApp.pause_capture` (zeroCam.py lines 288-298): clear
`capture_active`; then, if the stream is running, remember that it was
active and stop it (streamStop sets `running = False` synchronously,
cameras.py line 467), else record `streaming_was_active = False`.
Also returns the stream actions performed. -/
def pause_capture (s : CoordState) : CoordState × List Event :=
  if s.cameraRunning then
    (⟨false, true, false⟩, [Event.streamStop])
  else
    (⟨false, false, s.cameraRunning⟩, [])

/-- `ZeroCamApp.resume_capture` (zeroCam.py lines 300-328): if
`streaming_was_active`, restart the stream for the current day period and
clear the flag (the bounded wait for the device to stop and the possible
forced stop at lines 308-321 are device-handle details elided here; the
spawned stream worker sets the camera's `running` flag later, so
`cameraRunning` is left unchanged at return time); in every case the last
action is `capture_active.set()`.  Also returns the stream actions
performed. -/
def resume_capture (dp : DayPeriod) (s : CoordState) : CoordState × List Event :=
  if s.streamingWasActive then
    (⟨true, false, s.cameraRunning⟩, [Event.streamStart dp])
  else
    (⟨true, s.streamingWasActive, s.cameraRunning⟩, [])

/-- State of the streaming subsystem: the cooperative `running` flag and
the number of live streaming worker threads. -/
structure StreamState where
  running : Bool
  workers : Nat
deriving DecidableEq

/-- `PiCameraDevice.streamStart` (cameras.py lines 315-321) with the
spawned `streamNow` worker run sequentially to the point where it settles
the `running` flag: if `running` is already set the call returns at once
and spawns nothing (lines 316-318); otherwise a worker is spawned, which
exits immediately leaving `running = False` when no stream target is
enabled (lines 334-337) and otherwise enters its loop with
`running = True` (line 392). -/
def streamStart (anyStreamEnabled : Bool) (s : StreamState) : StreamState :=
  if s.running then s
  else if anyStreamEnabled then ⟨true, s.workers + 1⟩
  else s

/-- `PiCameraDevice.streamStop` (cameras.py lines 461-479): if the stream
is not running the call returns at once (lines 462-464); otherwise it
clears `running` and joins the worker thread before returning, so no live
worker remains. -/
def streamStop (s : StreamState) : StreamState :=
  if s.running = false then s
  else ⟨false, 0⟩

/-- The single-worker well-formedness of the streaming state between
calls: exactly one live worker while the stream is running, none while it
is not. -/
def StreamWF (s : StreamState) : Prop :=
  (s.running = true → s.workers = 1) ∧ (s.running = false → s.workers = 0)

/-- Unfolding of the bracketing loop when `shutter_idx` is outside
`[0, len(table))`: the break of cameras.py lines 202-204. -/
theorem bracketLoop_out_of_bounds (L : Nat) (tmin tmax : ℚ) (m : Nat → CapOutcome)
    (fuel : Nat) (idx : Int) (log : List (Nat × ℚ))
    (h : ¬(0 ≤ idx ∧ idx < (L : Int))) :
    bracketLoop L tmin tmax m (fuel+1) idx log = (log, LoopExit.noSuccess) := by
  simp only [bracketLoop]
  rw [if_pos h]

/-- Unfolding of the bracketing loop at a revisited index: the
anti-bouncing break of cameras.py lines 207-209. -/
theorem bracketLoop_revisit (L : Nat) (tmin tmax : ℚ) (m : Nat → CapOutcome)
    (fuel : Nat) (idx : Int) (log : List (Nat × ℚ))
    (hin : 0 ≤ idx ∧ idx < (L : Int)) (hmem : idx.toNat ∈ log.map Prod.fst) :
    bracketLoop L tmin tmax m (fuel+1) idx log = (log, LoopExit.noSuccess) := by
  simp only [bracketLoop]
  rw [if_neg (not_not_intro hin), if_pos hmem]

/-- Unfolding of one iteration of the bracketing loop at a valid, untried
index whose capture yields a brightness measurement. -/
theorem bracketLoop_step (L : Nat) (tmin tmax : ℚ) (m : Nat → CapOutcome)
    (fuel : Nat) (s : Nat) (log : List (Nat × ℚ)) (b : ℚ)
    (hsL : s < L) (hm : m s = CapOutcome.ok b)
    (hnew : s ∉ log.map Prod.fst) :
    bracketLoop L tmin tmax m (fuel+1) (s : Int) log =
      if tmin ≤ b ∧ b ≤ tmax then (log ++ [(s, b)], LoopExit.success s)
      else if b < tmin then bracketLoop L tmin tmax m fuel ((s:Int)+1) (log ++ [(s, b)])
      else if b > tmax then bracketLoop L tmin tmax m fuel ((s:Int)-1) (log ++ [(s, b)])
      else bracketLoop L tmin tmax m fuel (s:Int) (log ++ [(s, b)]) := by
  have ht : (s : Int).toNat = s := Int.toNat_natCast s
  simp only [bracketLoop, ht]
  rw [if_neg (not_not_intro ⟨Int.natCast_nonneg s, by exact_mod_cast hsL⟩), if_neg hnew, hm]

/-- Python's `min` over a non-empty sequence with a key function, realised
as a fold: the result is an element of the sequence, attains the minimal
key, and every element strictly before it has a strictly larger key (it is
the first minimiser in iteration order). -/
theorem foldl_min_spec {α : Type} (f : α → ℚ) (e : α) (es : List α) :
    ∃ l1 l2,
      e :: es = l1 ++ (es.foldl (fun best q => if f q < f best then q else best) e) :: l2 ∧
      (∀ q ∈ e :: es, f (es.foldl (fun best q => if f q < f best then q else best) e) ≤ f q) ∧
      (∀ q ∈ l1, f (es.foldl (fun best q => if f q < f best then q else best) e) < f q) := by
  induction es generalizing e with
  | nil => exact ⟨[], [], rfl, by simp, by simp⟩
  | cons a t ih =>
    simp only [List.foldl_cons]
    by_cases hfa : f a < f e
    · rw [if_pos hfa]
      obtain ⟨l1, l2, hdec, hle, hfirst⟩ := ih a
      have hra : f (t.foldl (fun best q => if f q < f best then q else best) a) ≤ f a :=
        hle a (by simp)
      refine ⟨e :: l1, l2, ?_, ?_, ?_⟩
      · rw [List.cons_append, ← hdec]
      · intro q hq
        rcases List.mem_cons.mp hq with rfl | hq
        · exact le_of_lt (lt_of_le_of_lt hra hfa)
        · exact hle q hq
      · intro q hq
        rcases List.mem_cons.mp hq with rfl | hq
        · exact lt_of_le_of_lt hra hfa
        · exact hfirst q hq
    · rw [if_neg hfa]
      obtain ⟨l1, l2, hdec, hle, hfirst⟩ := ih e
      have hfe : f e ≤ f a := le_of_not_lt hfa
      cases l1 with
      | nil =>
        rw [List.nil_append] at hdec
        injection hdec with h1 h2
        refine ⟨[], a :: t, ?_, ?_, by simp⟩
        · rw [List.nil_append, ← h1]
        · intro q hq
          rcases List.mem_cons.mp hq with rfl | hq
          · exact hle q (by simp)
          · rcases List.mem_cons.mp hq with rfl | hq
            · rw [← h1]; exact hfe
            · exact hle q (List.mem_cons_of_mem _ hq)
      | cons x l1t =>
        rw [List.cons_append] at hdec
        injection hdec with h1 h2
        have hrx : f (t.foldl (fun best q => if f q < f best then q else best) e) < f e := by
          have hx := hfirst x (by simp)
          rwa [← h1] at hx
        refine ⟨e :: a :: l1t, l2, ?_, ?_, ?_⟩
        · simp only [List.cons_append]
          exact congrArg (List.cons e) (congrArg (List.cons a) h2)
        · intro q hq
          rcases List.mem_cons.mp hq with rfl | hq
          · exact hle q (by simp)
          · rcases List.mem_cons.mp hq with rfl | hq
            · exact le_of_lt (lt_of_lt_of_le hrx hfe)
            · exact hle q (List.mem_cons_of_mem _ hq)
        · intro q hq
          rcases List.mem_cons.mp hq with rfl | hq
          · exact hrx
          · rcases List.mem_cons.mp hq with rfl | hq
            · exact lt_of_lt_of_le hrx hfe
            · exact hfirst q (List.mem_cons_of_mem _ hq)

/-- What the fallback selection of cameras.py lines 251-252 guarantees on a
non-empty attempts log: the pick is an entry of the log, attains the
minimal distance to `target_br`, and is the first entry in insertion order
to do so. -/
theorem fallbackPick_spec (tmin tmax : ℚ) (log : List (Nat × ℚ)) (hne : log ≠ []) :
    ∃ p l1 l2, fallbackPick tmin tmax log = some p ∧
      log = l1 ++ p :: l2 ∧
      (∀ q ∈ log, brightnessDist tmin tmax p.2 ≤ brightnessDist tmin tmax q.2) ∧
      (∀ q ∈ l1, brightnessDist tmin tmax p.2 < brightnessDist tmin tmax q.2) := by
  match log with
  | [] => exact absurd rfl hne
  | e :: es =>
    obtain ⟨l1, l2, hdec, hle, hfirst⟩ :=
      foldl_min_spec (fun p : Nat × ℚ => brightnessDist tmin tmax p.2) e es
    exact ⟨_, l1, l2, rfl, hdec, hle, hfirst⟩

/-- C1: in the non-day exposure search, whenever the bracketing loop is
entered with a `shutter_idx` that is already a key of the attempts log —
a revisit of any previously tried index, not only the immediately
preceding one — the search stops at that revisit before capturing again
(the log is returned unchanged, with no success reported), and the
candidate the fallback selection then chooses is an already-tried entry of
minimal distance to the band midpoint, not an arbitrary or newest one. -/
theorem revisit_stops_search (tmin tmax : ℚ) (m : Nat → CapOutcome)
    (fuel : Nat) (idx : Int) (log : List (Nat × ℚ))
    (hlo : 0 ≤ idx) (hhi : idx < (shutter_speeds_us.length : Int))
    (hmem : idx.toNat ∈ log.map Prod.fst) :
    bracketLoop shutter_speeds_us.length tmin tmax m (fuel+1) idx log
      = (log, LoopExit.noSuccess) ∧
    ∃ p, fallbackPick tmin tmax log = some p ∧ p ∈ log ∧
      ∀ q ∈ log, brightnessDist tmin tmax p.2 ≤ brightnessDist tmin tmax q.2 := by
  have hne : log ≠ [] := by
    intro h
    rw [h] at hmem
    simp at hmem
  obtain ⟨p, l1, l2, hpick, hdec, hle, _⟩ := fallbackPick_spec tmin tmax log hne
  refine ⟨bracketLoop_revisit _ _ _ _ _ _ _ ⟨hlo, hhi⟩ hmem, p, hpick, ?_, hle⟩
  rw [hdec]
  simp

/-- Witness for C1 at a concrete state: index 5 was the first of two tried
indices (5 then 9), so its revisit is not a revisit of the immediately
preceding index; the loop stops with the log unchanged and the fallback
pick is a minimal-distance already-tried entry. -/
theorem revisit_stops_search_witness :
    bracketLoop shutter_speeds_us.length 40 55 (fun _ => CapOutcome.ok 47) (5+1) 5
        [(5, 60), (9, 10)] = ([(5, 60), (9, 10)], LoopExit.noSuccess) ∧
    ∃ p, fallbackPick 40 55 [(5, 60), (9, 10)] = some p ∧ p ∈ [(5, (60:ℚ)), (9, 10)] ∧
      ∀ q ∈ [(5, (60:ℚ)), (9, 10)], brightnessDist 40 55 p.2 ≤ brightnessDist 40 55 q.2 :=
  revisit_stops_search 40 55 (fun _ => CapOutcome.ok 47) 5 5 [(5, 60), (9, 10)]
    (by decide) (by decide) (by decide)

/-- C2 counterexample: a run of the non-day search with the default band
[40, 55] (midpoint 47.5) that tries index 8 (brightness 56) and then
index 7 (brightness 39), two attempts at exactly the same distance 8.5
from the midpoint.  The fallback returns and persists index 8 — the first
attempted in dict insertion order — not the lowest index 7, refuting the
claimed lowest-index tie-break. -/
theorem fallback_tie_counterexample :
    (takePicture 40 55
        (fun i => if i = 8 then CapOutcome.ok 56 else if i = 7 then CapOutcome.ok 39
          else CapOutcome.ok 0) (some 8)).attempts = [(8, 56), (7, 39)] ∧
    brightnessDist 40 55 56 = brightnessDist 40 55 39 ∧
    (takePicture 40 55
        (fun i => if i = 8 then CapOutcome.ok 56 else if i = 7 then CapOutcome.ok 39
          else CapOutcome.ok 0) (some 8)) =
      ⟨some 8, some 8, [(8, 56), (7, 39)]⟩ ∧
    some 8 ≠ some 7 := by
  have hloop : bracketLoop shutter_speeds_us.length 40 55
      (fun i => if i = 8 then CapOutcome.ok 56 else if i = 7 then CapOutcome.ok 39
        else CapOutcome.ok 0) 30 (seedIndex (some 8)) []
      = ([(8, 56), (7, 39)], LoopExit.noSuccess) := by decide
  have hpick : fallbackPick 40 55 [(8, (56:ℚ)), (7, 39)] = some (8, 56) := by
    rw [fallbackPick]
    norm_num [brightnessDist, target_br]
  have hres : (takePicture 40 55
      (fun i => if i = 8 then CapOutcome.ok 56 else if i = 7 then CapOutcome.ok 39
        else CapOutcome.ok 0) (some 8)) = ⟨some 8, some 8, [(8, 56), (7, 39)]⟩ := by
    rw [takePicture, hloop]
    simp only [finishSearch, hpick]
  refine ⟨by rw [hres], ?_, hres, by decide⟩
  norm_num [brightnessDist, target_br]

/-- C2 (amended): when the bracketing loop exits without an in-band frame
and the attempts log is non-empty, the fallback selection returns the
attempted index whose measured brightness is closest to the midpoint of
[BRIGHTNESS_TARGET_MIN, BRIGHTNESS_TARGET_MAX]; when two attempted entries
are at exactly the same distance from the midpoint, the one attempted
first (dict insertion order) wins — not necessarily the lowest index.  The
chosen index is persisted as `lastKnownIndex` and its frame and metadata
are returned. -/
theorem fallback_closest_first_attempted (tmin tmax : ℚ) (m : Nat → CapOutcome)
    (lastKnown : Option Int) (log : List (Nat × ℚ))
    (hrun : bracketLoop shutter_speeds_us.length tmin tmax m 30 (seedIndex lastKnown) []
      = (log, LoopExit.noSuccess))
    (hne : log ≠ []) :
    ∃ p l1 l2,
      takePicture tmin tmax m lastKnown = ⟨some p.1, some p.1, log⟩ ∧
      log = l1 ++ p :: l2 ∧
      (∀ q ∈ log, brightnessDist tmin tmax p.2 ≤ brightnessDist tmin tmax q.2) ∧
      (∀ q ∈ l1, brightnessDist tmin tmax p.2 < brightnessDist tmin tmax q.2) := by
  obtain ⟨p, l1, l2, hpick, hdec, hle, hfirst⟩ := fallbackPick_spec tmin tmax log hne
  refine ⟨p, l1, l2, ?_, hdec, hle, hfirst⟩
  rw [takePicture, hrun]
  simp only [finishSearch, hpick]

/-- Witness for C2 (amended) at the concrete tie run of indices 8 and 7. -/
theorem fallback_closest_first_attempted_witness :
    ∃ p l1 l2,
      takePicture 40 55
          (fun i => if i = 8 then CapOutcome.ok 56 else if i = 7 then CapOutcome.ok 39
            else CapOutcome.ok 0) (some 8) = ⟨some p.1, some p.1, [(8, 56), (7, 39)]⟩ ∧
      [(8, (56:ℚ)), (7, 39)] = l1 ++ p :: l2 ∧
      (∀ q ∈ [(8, (56:ℚ)), (7, 39)], brightnessDist 40 55 p.2 ≤ brightnessDist 40 55 q.2) ∧
      (∀ q ∈ l1, brightnessDist 40 55 p.2 < brightnessDist 40 55 q.2) :=
  fallback_closest_first_attempted 40 55
    (fun i => if i = 8 then CapOutcome.ok 56 else if i = 7 then CapOutcome.ok 39
      else CapOutcome.ok 0) (some 8) [(8, 56), (7, 39)] (by decide) (by decide)

/-- Climbing half of the convergence argument: with a nondecreasing
brightness function, every capture succeeding, an in-band index `n` steps
above the current one, enough fuel, and every logged index below the
current one, the bracketing loop reaches an in-band success without
revisits, adding at most `n + 1` attempts to the log. -/
theorem bracketLoop_up (L : Nat) (tmin tmax : ℚ) (br : Nat → ℚ)
    (hmono : ∀ i j, i ≤ j → br i ≤ br j) :
    ∀ n fuel s log, n + 1 ≤ fuel → s + n < L →
      tmin ≤ br (s + n) → br (s + n) ≤ tmax →
      (∀ j ∈ log.map Prod.fst, j < s) →
      ∃ i log', s ≤ i ∧ i ≤ s + n ∧ tmin ≤ br i ∧ br i ≤ tmax ∧
        bracketLoop L tmin tmax (fun t => CapOutcome.ok (br t)) fuel (s : Int) log
          = (log', LoopExit.success i) ∧
        log'.length ≤ log.length + (n + 1) := by
  intro n
  induction n with
  | zero =>
    intro fuel s log hfuel hlt hbl hbu hkeys
    obtain ⟨f, rfl⟩ : ∃ f, fuel = f + 1 := ⟨fuel - 1, by omega⟩
    have hnew : s ∉ log.map Prod.fst := fun h => lt_irrefl s (hkeys s h)
    have hstep := bracketLoop_step L tmin tmax (fun t => CapOutcome.ok (br t)) f s log (br s)
      (by omega) rfl hnew
    rw [if_pos ⟨by simpa using hbl, by simpa using hbu⟩] at hstep
    exact ⟨s, log ++ [(s, br s)], le_refl s, by omega, by simpa using hbl,
      by simpa using hbu, hstep, by simp⟩
  | succ n ih =>
    intro fuel s log hfuel hlt hbl hbu hkeys
    obtain ⟨f, rfl⟩ : ∃ f, fuel = f + 1 := ⟨fuel - 1, by omega⟩
    have hnew : s ∉ log.map Prod.fst := fun h => lt_irrefl s (hkeys s h)
    have hstep := bracketLoop_step L tmin tmax (fun t => CapOutcome.ok (br t)) f s log (br s)
      (by omega) rfl hnew
    by_cases hband : tmin ≤ br s ∧ br s ≤ tmax
    · rw [if_pos hband] at hstep
      exact ⟨s, log ++ [(s, br s)], le_refl s, by omega, hband.1, hband.2, hstep, by simp⟩
    · have hnotup : ¬ br s > tmax :=
        not_lt.mpr ((hmono s (s + (n+1)) (by omega)).trans hbu)
      have hlow : br s < tmin := by
        rcases lt_or_le (br s) tmin with h | h
        · exact h
        · exact absurd ⟨h, le_of_not_lt hnotup⟩ hband
      rw [if_neg hband, if_pos hlow] at hstep
      have hcast : (s : Int) + 1 = ((s + 1 : Nat) : Int) := by push_cast; ring
      rw [hcast] at hstep
      have hkeys' : ∀ j ∈ (log ++ [(s, br s)]).map Prod.fst, j < s + 1 := by
        intro j hj
        simp only [List.map_append, List.mem_append] at hj
        rcases hj with hj | hj
        · exact lt_trans (hkeys j hj) (by omega)
        · simp at hj
          omega
      obtain ⟨i, log', hi1, hi2, hib1, hib2, hrun, hlen⟩ :=
        ih f (s+1) (log ++ [(s, br s)]) (by omega) (by omega)
          (by rw [show s + 1 + n = s + (n+1) by omega]; exact hbl)
          (by rw [show s + 1 + n = s + (n+1) by omega]; exact hbu) hkeys'
      refine ⟨i, log', by omega, by omega, hib1, hib2, hstep.trans hrun, ?_⟩
      simp only [List.length_append, List.length_cons, List.length_nil] at hlen
      omega

/-- Descending half of the convergence argument, symmetric to
`bracketLoop_up`: the in-band index lies `n` steps below the current one
and every logged index is above the current one. -/
theorem bracketLoop_down (L : Nat) (tmin tmax : ℚ) (br : Nat → ℚ)
    (hmono : ∀ i j, i ≤ j → br i ≤ br j) :
    ∀ n fuel s log, n + 1 ≤ fuel → n ≤ s → s < L →
      tmin ≤ br (s - n) → br (s - n) ≤ tmax →
      (∀ j ∈ log.map Prod.fst, s < j) →
      ∃ i log', s - n ≤ i ∧ i ≤ s ∧ tmin ≤ br i ∧ br i ≤ tmax ∧
        bracketLoop L tmin tmax (fun t => CapOutcome.ok (br t)) fuel (s : Int) log
          = (log', LoopExit.success i) ∧
        log'.length ≤ log.length + (n + 1) := by
  intro n
  induction n with
  | zero =>
    intro fuel s log hfuel hns hlt hbl hbu hkeys
    obtain ⟨f, rfl⟩ : ∃ f, fuel = f + 1 := ⟨fuel - 1, by omega⟩
    have hnew : s ∉ log.map Prod.fst := fun h => lt_irrefl s (hkeys s h)
    have hstep := bracketLoop_step L tmin tmax (fun t => CapOutcome.ok (br t)) f s log (br s)
      hlt rfl hnew
    rw [if_pos ⟨by simpa using hbl, by simpa using hbu⟩] at hstep
    exact ⟨s, log ++ [(s, br s)], by omega, le_refl s, by simpa using hbl,
      by simpa using hbu, hstep, by simp⟩
  | succ n ih =>
    intro fuel s log hfuel hns hlt hbl hbu hkeys
    obtain ⟨f, rfl⟩ : ∃ f, fuel = f + 1 := ⟨fuel - 1, by omega⟩
    have hnew : s ∉ log.map Prod.fst := fun h => lt_irrefl s (hkeys s h)
    have hstep := bracketLoop_step L tmin tmax (fun t => CapOutcome.ok (br t)) f s log (br s)
      hlt rfl hnew
    by_cases hband : tmin ≤ br s ∧ br s ≤ tmax
    · rw [if_pos hband] at hstep
      exact ⟨s, log ++ [(s, br s)], by omega, le_refl s, hband.1, hband.2, hstep, by simp⟩
    · have hnotlow : ¬ br s < tmin :=
        not_lt.mpr (hbl.trans (hmono (s - (n+1)) s (by omega)))
      have hhigh : br s > tmax := by
        rcases lt_or_le tmax (br s) with h | h
        · exact h
        · exact absurd ⟨le_of_not_lt hnotlow, h⟩ hband
      rw [if_neg hband, if_neg hnotlow, if_pos hhigh] at hstep
      have hcast : (s : Int) - 1 = ((s - 1 : Nat) : Int) := by omega
      rw [hcast] at hstep
      have hkeys' : ∀ j ∈ (log ++ [(s, br s)]).map Prod.fst, s - 1 < j := by
        intro j hj
        simp only [List.map_append, List.mem_append] at hj
        rcases hj with hj | hj
        · have := hkeys j hj
          omega
        · simp at hj
          omega
      obtain ⟨i, log', hi1, hi2, hib1, hib2, hrun, hlen⟩ :=
        ih f (s-1) (log ++ [(s, br s)]) (by omega) (by omega) (by omega)
          (by rw [show s - 1 - n = s - (n+1) by omega]; exact hbl)
          (by rw [show s - 1 - n = s - (n+1) by omega]; exact hbu) hkeys'
      refine ⟨i, log', by omega, by omega, hib1, hib2, hstep.trans hrun, ?_⟩
      simp only [List.length_append, List.length_cons, List.length_nil] at hlen
      omega

/-- The synthetic brightness function of the C3 counterexample: constantly
zero, hence monotonic in the shutter index in both directions. -/
def brZero : Nat → ℚ := fun _ => 0

/-- C3 counterexample: the constant function `brZero` is monotonic in the
shutter index (both nondecreasing and nonincreasing over the whole table),
yet the search started at the valid index 15 walks off the top of the
table and returns the fallback frame of index 15, whose measured
brightness 0 lies outside the target band [40, 55]: the search does not
terminate with an in-band success for every monotonic brightness
function. -/
theorem monotone_convergence_counterexample :
    (∀ i ∈ List.range shutter_speeds_us.length, ∀ j ∈ List.range shutter_speeds_us.length,
      i ≤ j → brZero i ≤ brZero j) ∧
    (∀ i ∈ List.range shutter_speeds_us.length, ∀ j ∈ List.range shutter_speeds_us.length,
      i ≤ j → brZero j ≤ brZero i) ∧
    takePicture 40 55 (fun t => CapOutcome.ok (brZero t)) (some 15)
      = ⟨some 15, some 15, [(15, brZero 15)]⟩ ∧
    ¬(40 ≤ brZero 15 ∧ brZero 15 ≤ 55) :=
  ⟨by decide, by decide, by decide, by decide⟩

/-- C3 (amended): for every brightness function that is monotonically
nondecreasing in the shutter index and attains the target band at some
valid index, the exposure search started at any valid start index
terminates with a success result whose measured brightness lies within
[BRIGHTNESS_TARGET_MIN, BRIGHTNESS_TARGET_MAX], using at most
`len(shutterTable)` capture attempts, and persists the in-band index. -/
theorem monotone_in_band_converges (tmin tmax : ℚ) (br : Nat → ℚ)
    (hmono : ∀ i j, i ≤ j → br i ≤ br j)
    (k : Nat) (hk : k < shutter_speeds_us.length)
    (hkl : tmin ≤ br k) (hku : br k ≤ tmax)
    (s : Nat) (hs : s < shutter_speeds_us.length) :
    ∃ i log', i < shutter_speeds_us.length ∧ tmin ≤ br i ∧ br i ≤ tmax ∧
      takePicture tmin tmax (fun t => CapOutcome.ok (br t)) (some (s : Int))
        = ⟨some i, some i, log'⟩ ∧
      log'.length ≤ shutter_speeds_us.length := by
  have hL : shutter_speeds_us.length = 16 := rfl
  rw [hL] at hk hs
  have hrun : ∃ i log', i < 16 ∧ tmin ≤ br i ∧ br i ≤ tmax ∧
      bracketLoop shutter_speeds_us.length tmin tmax (fun t => CapOutcome.ok (br t)) 30
        (s : Int) [] = (log', LoopExit.success i) ∧ log'.length ≤ 16 := by
    rcases le_or_lt s k with hsk | hks
    · obtain ⟨i, log', hi1, hi2, hib1, hib2, hr, hlen⟩ :=
        bracketLoop_up shutter_speeds_us.length tmin tmax br hmono (k - s) 30 s []
          (by omega) (by rw [hL]; omega)
          (by rw [show s + (k - s) = k from by omega]; exact hkl)
          (by rw [show s + (k - s) = k from by omega]; exact hku)
          (by simp)
      refine ⟨i, log', by omega, hib1, hib2, hr, ?_⟩
      simp only [List.length_nil, Nat.zero_add] at hlen
      omega
    · obtain ⟨i, log', hi1, hi2, hib1, hib2, hr, hlen⟩ :=
        bracketLoop_down shutter_speeds_us.length tmin tmax br hmono (s - k) 30 s []
          (by omega) (by omega) (by rw [hL]; omega)
          (by rw [show s - (s - k) = k from by omega]; exact hkl)
          (by rw [show s - (s - k) = k from by omega]; exact hku)
          (by simp)
      refine ⟨i, log', by omega, hib1, hib2, hr, ?_⟩
      simp only [List.length_nil, Nat.zero_add] at hlen
      omega
  obtain ⟨i, log', hi, hib1, hib2, hr, hlen⟩ := hrun
  refine ⟨i, log', by rw [hL]; omega, hib1, hib2, ?_, by rw [hL]; omega⟩
  rw [takePicture]
  rw [show seedIndex (some (s : Int)) = (s : Int) from rfl, hr]
  simp only [finishSearch]

/-- Witness for C3 (amended): the nondecreasing step function that is 45
up to index 7 and 50 above it, in band at index 0, searched from start
index 8. -/
theorem monotone_in_band_converges_witness :
    ∃ i log', i < shutter_speeds_us.length ∧
      (40:ℚ) ≤ (if i ≤ 7 then (45:ℚ) else 50) ∧ (if i ≤ 7 then (45:ℚ) else 50) ≤ 55 ∧
      takePicture 40 55 (fun t => CapOutcome.ok (if t ≤ 7 then (45:ℚ) else 50))
          (some ((8 : Nat) : Int)) = ⟨some i, some i, log'⟩ ∧
      log'.length ≤ shutter_speeds_us.length :=
  monotone_in_band_converges 40 55 (fun t => if t ≤ 7 then (45:ℚ) else 50)
    (fun i j hij => by
      dsimp only
      split_ifs with h1 h2 h3
      · exact le_refl _
      · decide
      · omega
      · exact le_refl _)
    0 (by decide) (by decide) (by decide) 8 (by decide)

/-- C4: for every non-day search in which no attempt is recorded — the
loop ends with an empty attempts log (for instance because every capture
produced an empty buffer), or a hardware exception aborts the search —
`takePicture` returns a null result rather than raising (the embedding is
a total function, mirroring the handler of cameras.py lines 259-263), and
no index is stored, so the persisted `capture_idx` file is left
unchanged. -/
theorem no_attempts_null_result (tmin tmax : ℚ) (m : Nat → CapOutcome)
    (lastKnown : Option Int)
    (h : (bracketLoop shutter_speeds_us.length tmin tmax m 30 (seedIndex lastKnown) []).2
          = LoopExit.aborted ∨
         bracketLoop shutter_speeds_us.length tmin tmax m 30 (seedIndex lastKnown) []
          = ([], LoopExit.noSuccess)) :
    (takePicture tmin tmax m lastKnown).frame = none ∧
    (takePicture tmin tmax m lastKnown).storedIndex = none := by
  rcases h with h | h
  · rcases hres : bracketLoop shutter_speeds_us.length tmin tmax m 30 (seedIndex lastKnown) []
      with ⟨log, ex⟩
    rw [hres] at h
    simp only at h
    subst h
    rw [takePicture, hres]
    simp [finishSearch]
  · rw [takePicture, h]
    simp [finishSearch, fallbackPick]

/-- Witness for C4: every capture attempt yields an empty buffer, the
attempts log stays empty, and the search returns null without storing. -/
theorem no_attempts_null_result_witness :
    (takePicture 40 55 (fun _ => CapOutcome.empty) (some 8)).frame = none ∧
    (takePicture 40 55 (fun _ => CapOutcome.empty) (some 8)).storedIndex = none :=
  no_attempts_null_result 40 55 (fun _ => CapOutcome.empty) (some 8) (Or.inr (by decide))

/-- C5 counterexample: when the persisted file lacks the `capture_idx` key
— no persisted index is available — `_init_capture_index` defaults the
in-memory index to 0, not `None`, so the search seeds at index 0 rather
than the mid-table index 8; observably, a brightness in band only at
index 0 makes the search succeed immediately at index 0. -/
theorem seed_default_counterexample :
    seedIndex (init_capture_index none) = 0 ∧
    seedIndex (init_capture_index none) ≠ 8 ∧
    (takePicture 40 55 (fun i => if i = 0 then CapOutcome.ok 47 else CapOutcome.ok 0)
      (init_capture_index none)).frame = some 0 :=
  ⟨by decide, by decide, by decide⟩

/-- C5 (amended): the initial shutter index is seeded from the in-memory
`lastKnownIndex` whenever that is not `None`; the mid-table default 8
applies only to the `None` case, which `_init_capture_index` never
produces — after initialisation the index is the persisted `capture_idx`
when the key is present and 0 (not the mid-table 8) when it is absent. -/
theorem seed_index_semantics :
    (∀ v : Int, seedIndex (init_capture_index (some v)) = v) ∧
    seedIndex (init_capture_index none) = 0 ∧
    seedIndex none = 8 :=
  ⟨fun _ => rfl, rfl, rfl⟩

/-- C6 counterexample: the persisted index 100 is used without any
re-validation — although the brightness would be in band at every valid
index, the search performs no capture at all, returns a null result, and
neither clamps nor resets the invalid index, while the same run from the
valid persisted index 8 succeeds at once. -/
theorem no_revalidation_counterexample :
    takePicture 40 55 (fun _ => CapOutcome.ok 47) (some 100) = ⟨none, none, []⟩ ∧
    (takePicture 40 55 (fun _ => CapOutcome.ok 47) (some 8)).frame = some 8 :=
  ⟨by decide, by decide⟩

/-- C6 (amended): a persisted `lastKnownIndex` is not re-validated against
the shutter table, clamped, or reset before use; whenever it lies outside
`[0, len(table))` the loop's bounds guard ends the search at the very
first iteration, so no capture is attempted, a null result is returned,
and nothing is persisted — the invalid index remains on disk. -/
theorem invalid_persisted_index_null (tmin tmax : ℚ) (m : Nat → CapOutcome) (v : Int)
    (hv : ¬(0 ≤ v ∧ v < (shutter_speeds_us.length : Int))) :
    takePicture tmin tmax m (some v) = ⟨none, none, []⟩ := by
  rw [takePicture, show seedIndex (some v) = v from rfl,
    show (30:Nat) = 29 + 1 from rfl, bracketLoop_out_of_bounds _ _ _ _ _ _ _ hv]
  simp [finishSearch, fallbackPick]

/-- Witness for C6 (amended) at the out-of-range persisted index -3. -/
theorem invalid_persisted_index_null_witness :
    takePicture 40 55 (fun _ => CapOutcome.ok 47) (some (-3)) = ⟨none, none, []⟩ :=
  invalid_persisted_index_null 40 55 (fun _ => CapOutcome.ok 47) (-3) (by decide)

/-- C7 counterexample: with the day-period oracle returning "unknown"
while a capture is active and streaming is running, `capture_job` returns
right after the initial "Capturing Image" diagnostic — no error
diagnostic is published and streaming is not restarted before the job
returns, unlike on the other per-job recoverable error paths. -/
theorem unknown_day_period_counterexample :
    capture_job ⟨true, DayPeriod.unknown, true, true, true, true, true, true, 5⟩ 3
      = ([Event.publishDiag "Capturing Image"], 3) ∧
    Event.streamStart DayPeriod.unknown ∉
      (capture_job ⟨true, DayPeriod.unknown, true, true, true, true, true, true, 5⟩ 3).1 ∧
    Event.publishDiag "Error: Capture Failed" ∉
      (capture_job ⟨true, DayPeriod.unknown, true, true, true, true, true, true, 5⟩ 3).1 :=
  ⟨by decide, by decide, by decide⟩

/-- C7 (amended): when the day-period oracle returns "unknown", the
capture job aborts without attempting any capture, but — unlike the other
per-job recoverable errors — it returns immediately after the initial
"Capturing Image" diagnostic, publishing no error diagnostic and not
restarting streaming.  The end-of-job streaming restart is unconditional
only for jobs that reach the capture step: for every non-unknown day
period the job performs the capture and its very last action is a stream
restart, on the failure path as well as on the success path. -/
theorem unknown_aborts_without_restart (env : JobEnv) (c : Nat)
    (hact : env.captureActive = true) :
    (env.dayPeriod = DayPeriod.unknown →
      capture_job env c = ([Event.publishDiag "Capturing Image"], c)) ∧
    (env.dayPeriod ≠ DayPeriod.unknown →
      Event.takePicture env.dayPeriod ∈ (capture_job env c).1 ∧
      (capture_job env c).1.getLast? = some (Event.streamStart env.dayPeriod)) := by
  have hact' : ¬ env.captureActive = false := by
    rw [hact]
    simp
  constructor
  · intro hdp
    simp [capture_job, hact, hdp]
  · intro hdp
    by_cases hok : env.captureOk = false
    · refine ⟨by simp [capture_job, hact, hdp, hok], ?_⟩
      simp only [capture_job]
      rw [if_neg hact', if_neg hdp, if_pos hok]
      dsimp only
      rw [List.getLast?_append_cons]
      rfl
    · refine ⟨by simp [capture_job, hact, hdp, hok], ?_⟩
      simp only [capture_job]
      rw [if_neg hact', if_neg hdp, if_neg hok]
      dsimp only
      exact List.getLast?_concat _

/-- Witness for C7 (amended) at the unknown-day-period environment. -/
theorem unknown_aborts_without_restart_witness :
    (DayPeriod.unknown = DayPeriod.unknown →
      capture_job ⟨true, DayPeriod.unknown, true, true, true, true, true, true, 5⟩ 3
        = ([Event.publishDiag "Capturing Image"], 3)) ∧
    (DayPeriod.unknown ≠ DayPeriod.unknown →
      Event.takePicture DayPeriod.unknown ∈
        (capture_job ⟨true, DayPeriod.unknown, true, true, true, true, true, true, 5⟩ 3).1 ∧
      (capture_job ⟨true, DayPeriod.unknown, true, true, true, true, true, true, 5⟩ 3).1.getLast?
        = some (Event.streamStart DayPeriod.unknown)) :=
  unknown_aborts_without_restart ⟨true, DayPeriod.unknown, true, true, true, true, true, true, 5⟩
    3 rfl

/-- C9 counterexample: on a successful capture with all optional steps
enabled, the shot counter is incremented before the post-processing
pipeline runs — `incShotCounter` precedes both the unsharp-mask step and
the upload in the job's action order — refuting the claim that the
counter is incremented only after the pipeline. -/
theorem counter_before_pipeline_counterexample :
    Event.incShotCounter ∈
      (capture_job ⟨true, DayPeriod.night, false, true, true, true, true, true, 0⟩ 0).1 ∧
    Event.unsharpMask ∈
      (capture_job ⟨true, DayPeriod.night, false, true, true, true, true, true, 0⟩ 0).1 ∧
    Event.upload ∈
      (capture_job ⟨true, DayPeriod.night, false, true, true, true, true, true, 0⟩ 0).1 ∧
    (capture_job ⟨true, DayPeriod.night, false, true, true, true, true, true, 0⟩ 0).1.indexOf
        Event.incShotCounter
      < (capture_job ⟨true, DayPeriod.night, false, true, true, true, true, true, 0⟩ 0).1.indexOf
        Event.unsharpMask ∧
    (capture_job ⟨true, DayPeriod.night, false, true, true, true, true, true, 0⟩ 0).1.indexOf
        Event.incShotCounter
      < (capture_job ⟨true, DayPeriod.night, false, true, true, true, true, true, 0⟩ 0).1.indexOf
        Event.upload :=
  ⟨by decide, by decide, by decide, by decide, by decide⟩

/-- C9 (amended): on a successful capture the job increments the shot
counter immediately after the capture, then applies the post-processing
steps in the fixed order unsharp-mask (optional), crop (optional),
privacy-mask (optional), annotate, overlay, upload, local-save, archive
(optional); after the pipeline, when a positive hard-reset interval is
configured and the counter has reached it, a hard reset is performed and
the counter returns to zero, and the job ends with the stream restart.
Stated as: the pipeline events of the job's trace, in order, are exactly
this sequence, and the new counter value is zero exactly on a reset. -/
theorem success_pipeline_order (env : JobEnv) (c : Nat)
    (hact : env.captureActive = true) (hdp : env.dayPeriod ≠ DayPeriod.unknown)
    (hok : env.captureOk = true) :
    (capture_job env c).1.filter pipelineEvent =
      [Event.takePicture env.dayPeriod, Event.incShotCounter]
        ++ (if env.unsharpEnabled then [Event.unsharpMask] else [])
        ++ (if env.cropEnabled then [Event.crop] else [])
        ++ (if env.privacyMaskerPresent then [Event.privacyMask] else [])
        ++ [Event.annotate, Event.addOverlays, Event.upload, Event.saveImage]
        ++ (if env.archiveEnabled then [Event.archive] else [])
        ++ (if 0 < env.hardResetInterval ∧ env.hardResetInterval ≤ c + 1 then
              [Event.hardReset] else [])
        ++ [Event.streamStart env.dayPeriod] ∧
    (capture_job env c).2 =
      (if 0 < env.hardResetInterval ∧ env.hardResetInterval ≤ c + 1 then 0 else c + 1) := by
  have hact' : ¬ env.captureActive = false := by
    rw [hact]
    simp
  have hok' : ¬ env.captureOk = false := by
    rw [hok]
    simp
  constructor
  · simp only [capture_job]
    rw [if_neg hact', if_neg hdp, if_neg hok']
    dsimp only
    by_cases h1 : env.cameraRunning <;> by_cases h2 : env.unsharpEnabled <;>
      by_cases h3 : env.cropEnabled <;> by_cases h4 : env.privacyMaskerPresent <;>
      by_cases h5 : env.archiveEnabled <;>
      by_cases h6 : 0 < env.hardResetInterval ∧ env.hardResetInterval ≤ c + 1 <;>
      simp [h1, h2, h3, h4, h5, h6, pipelineEvent]
  · simp only [capture_job]
    rw [if_neg hact', if_neg hdp, if_neg hok']

/-- Witness for C9 (amended): all optional steps enabled, hard-reset
interval 5 reached at the fifth shot — the pipeline runs in order and the
counter resets to zero. -/
theorem success_pipeline_order_witness :
    (capture_job ⟨true, DayPeriod.night, true, true, true, true, true, true, 5⟩ 4).1.filter
        pipelineEvent =
      [Event.takePicture DayPeriod.night, Event.incShotCounter, Event.unsharpMask, Event.crop,
        Event.privacyMask, Event.annotate, Event.addOverlays, Event.upload, Event.saveImage,
        Event.archive, Event.hardReset, Event.streamStart DayPeriod.night] ∧
    (capture_job ⟨true, DayPeriod.night, true, true, true, true, true, true, 5⟩ 4).2 = 0 :=
  success_pipeline_order ⟨true, DayPeriod.night, true, true, true, true, true, true, 5⟩ 4 rfl
    (by decide) rfl

/-- C8 counterexample: starting from an active coordinator with a running
stream, one `pause()` records `streamingWasActive = true`, but a second
`pause()` — seeing the stream already stopped — overwrites it with
`false`, so the state after two pauses differs from the state after one:
pausing twice is not equivalent to pausing once while streaming was
active. -/
theorem pause_twice_counterexample :
    (pause_capture ⟨true, false, true⟩).1.streamingWasActive = true ∧
    (pause_capture (pause_capture ⟨true, false, true⟩).1).1.streamingWasActive = false ∧
    (pause_capture (pause_capture ⟨true, false, true⟩).1).1
      ≠ (pause_capture ⟨true, false, true⟩).1 :=
  ⟨by decide, by decide, by decide⟩

/-- C8 (amended): calling `pause()` twice in a row is equivalent to
calling it once exactly when streaming was not active; when streaming was
active, the second pause additionally clears `streamingWasActive`, so a
subsequent `resume()` performs no stream restart.  `resume()` with no
prior pause (`streamingWasActive` false) performs no stream manipulation
but still sets the active flag, and `resume()` always leaves the active
flag set as its last action. -/
theorem pause_resume_semantics (dp : DayPeriod) (s : CoordState) :
    ((pause_capture (pause_capture s).1).1 = (pause_capture s).1 ↔ s.cameraRunning = false) ∧
    (s.cameraRunning = true →
      (pause_capture (pause_capture s).1).1 = ⟨false, false, false⟩ ∧
      (resume_capture dp (pause_capture (pause_capture s).1).1).2 = []) ∧
    (s.streamingWasActive = false →
      resume_capture dp s = (⟨true, s.streamingWasActive, s.cameraRunning⟩, [])) ∧
    (resume_capture dp s).1.captureActive = true := by
  obtain ⟨a, w, r⟩ := s
  refine ⟨?_, ?_, ?_, ?_⟩
  · cases a <;> cases w <;> cases r <;> decide
  · intro h
    cases h
    exact ⟨rfl, rfl⟩
  · intro h
    cases h
    rfl
  · cases w <;> rfl

/-- Witness for C8 (amended) at the active-with-running-stream state. -/
theorem pause_resume_semantics_witness :
    ((pause_capture (pause_capture ⟨true, false, true⟩).1).1
        = (pause_capture ⟨true, false, true⟩).1 ↔ (true : Bool) = false) ∧
    ((true : Bool) = true →
      (pause_capture (pause_capture ⟨true, false, true⟩).1).1 = ⟨false, false, false⟩ ∧
      (resume_capture DayPeriod.day (pause_capture (pause_capture ⟨true, false, true⟩).1).1).2
        = []) ∧
    ((false : Bool) = false →
      resume_capture DayPeriod.day ⟨true, false, true⟩ = (⟨true, false, true⟩, [])) ∧
    (resume_capture DayPeriod.day ⟨true, false, true⟩).1.captureActive = true :=
  pause_resume_semantics DayPeriod.day ⟨true, false, true⟩

/-- C10: at most one streaming worker exists at a time.  From any
well-formed streaming state, `streamStart` while the loop is running
returns immediately and spawns nothing, `streamStop` while no stream runs
returns immediately without blocking, both calls preserve the single-
worker invariant, and the worker count never exceeds one — which is what
makes the coordinator's unconditional end-of-job restart safe to
repeat. -/
theorem stream_single_worker (e : Bool) (s : StreamState) (hwf : StreamWF s) :
    (s.running = true → streamStart e s = s) ∧
    (s.running = false → streamStop s = s) ∧
    StreamWF (streamStart e s) ∧ StreamWF (streamStop s) ∧
    (streamStart e s).workers ≤ 1 ∧ (streamStop s).workers ≤ 1 := by
  obtain ⟨hw1, hw2⟩ := hwf
  obtain ⟨r, w⟩ := s
  cases r <;> cases e <;> simp_all [streamStart, streamStop, StreamWF]

/-- Witness for C10 at the running single-worker state with streaming
enabled. -/
theorem stream_single_worker_witness :
    ((true : Bool) = true → streamStart true ⟨true, 1⟩ = ⟨true, 1⟩) ∧
    ((true : Bool) = false → streamStop ⟨true, 1⟩ = ⟨true, 1⟩) ∧
    StreamWF (streamStart true ⟨true, 1⟩) ∧ StreamWF (streamStop ⟨true, 1⟩) ∧
    (streamStart true ⟨true, 1⟩).workers ≤ 1 ∧ (streamStop ⟨true, 1⟩).workers ≤ 1 :=
  stream_single_worker true ⟨true, 1⟩ ⟨fun _ => rfl, fun h => Bool.noConfusion h⟩
